import Mathlib

/-!
Shallow embedding of the SmartWatts formula core (smartwatts/rx_formula.py,
smartwatts/topology.py, smartwatts/context.py, smartwatts/exception.py).

Python floats are modelled as exact rationals; Python dictionaries as
association lists preserving insertion order; Python exceptions as an
explicit `Except` error channel.  The external scikit-learn solver is kept
abstract as a fit-function parameter, and the sha1-of-pickle content hash is
modelled as a deterministic 40-hex-digit digest of the fitted parameters,
which is all the source relies on.
-/

namespace SmartwattsFormula

/-- Python exception kinds that can be raised by the embedded code paths. -/
inductive PyError where
  | keyError : PyError
  | indexError : PyError
  | smartWattsException : String → PyError
  | zeroDivisionError : PyError
  | notFittedError : PyError
deriving DecidableEq, Repr

/-- Lookup in an association list (Python `dict.__getitem__` / `dict.get`). -/
def alookup {α β : Type} [DecidableEq α] : List (α × β) → α → Option β
  | [], _ => none
  | (a, b) :: t, k => if a = k then some b else alookup t k

/-- Lookup with default 0 (Python `defaultdict(int).__getitem__`). -/
def lookupD (l : List (String × ℚ)) (k : String) : ℚ :=
  (alookup l k).getD 0

/-- Update the value of a key, keeping its position, or append the key at the
end (Python `dict.__setitem__` insertion-order semantics). -/
def updAssoc {α β : Type} [DecidableEq α] : List (α × β) → α → β → List (α × β)
  | [], k, v => [(k, v)]
  | (a, b) :: t, k, v => if a = k then (k, v) :: t else (a, b) :: updAssoc t k v

/-- Remove a key from an association list (Python `dict.pop`). -/
def removeAssoc {α β : Type} [DecidableEq α] (l : List (α × β)) (k : α) :
    List (α × β) :=
  l.filter (fun p => decide (p.1 ≠ k))

/-- Hexadecimal digit character, as produced by `hexdigest` (0-9, a-f). -/
def hexChar (m : Nat) : Char :=
  if m < 10 then Char.ofNat (48 + m) else Char.ofNat (87 + m)

/-- Big-endian list of `k` hexadecimal digit characters of `n`. -/
def hexDigits : Nat → Nat → List Char
  | 0, _ => []
  | k + 1, n => hexDigits k (n / 16) ++ [hexChar (n % 16)]

/-- Digest modelling `sha1(...).hexdigest()`: a deterministic 40-character
hexadecimal string computed from a natural-number serialization.  The source
only relies on the digest being a deterministic 40-hex-char function of the
serialized object. -/
def sha1hex (n : Nat) : String :=
  String.mk (hexDigits 40 n)

/-- Injective-style encoding of a rational into a natural number. -/
def encodeQ (q : ℚ) : Nat :=
  Nat.pair q.num.natAbs (Nat.pair (if q.num < 0 then 1 else 0) q.den)

/-- Encoding of a list of naturals into a natural number. -/
def encodeList : List Nat → Nat
  | [] => 0
  | a :: t => Nat.pair a (encodeList t) + 1

/-- Estimator state the formula stores: `coef_`, `intercept_`, the
`fit_intercept` constructor flag the estimator was built with (the source
passes `fit_intercept=...` at `Regression(...)` construction, and the
pickled object carries it), and whether `fit` has completed (scikit-learn
raises `NotFittedError` from `predict` before the first fit). -/
structure Regression where
  coef : List ℚ
  intercept : ℚ
  fit_intercept : Bool
  fitted : Bool
deriving DecidableEq, Repr

/-- Freshly constructed `Regression()` estimator: unfitted, with the
default `fit_intercept=True`. -/
def Regression.initR : Regression := ⟨[], 0, true, false⟩

/-- Serialization modelling `pickle.dumps(model)`: a deterministic function
of the estimator state the embedding tracks — the fitted parameters and the
`fit_intercept` constructor flag.  Data-dependent solver attributes of the
real estimator (`n_iter_`, `dual_gap_`) are not modelled; the results below
rely only on equal fit inputs giving equal serializations and on the flag
being serialized, both true of the real pickle. -/
def serializeModel (r : Regression) : Nat :=
  Nat.pair (encodeList (r.coef.map encodeQ))
    (Nat.pair (encodeQ r.intercept)
      (Nat.pair (if r.fit_intercept then 1 else 0) (if r.fitted then 1 else 0)))

/-- Dot product of coefficient and feature vectors. -/
def dotProduct (c x : List ℚ) : ℚ :=
  (List.zipWith (· * ·) c x).sum

/-- Prediction of a fitted linear model on a feature vector:
`intercept_ + coef_ · x`. -/
def Regression.predictVec (r : Regression) (x : List ℚ) : ℚ :=
  r.intercept + dotProduct r.coef x

/-- Reports history (class `History`): two parallel bounded FIFO queues
(`deque(maxlen=max_length)`). -/
structure History where
  max_length : Nat
  X : List (List ℚ)
  y : List ℚ
deriving DecidableEq, Repr

/-- Keep the last `m` elements of a list (`deque(maxlen=m)` overflow). -/
def trimTo {α : Type} (m : Nat) (l : List α) : List α :=
  l.drop (l.length - m)

/-- Method `History.store_report`: append a sample, discarding the oldest
one when the queue is at capacity. -/
def History.store_report (h : History) (power_reference : ℚ)
    (events_value : List ℚ) : History :=
  { h with
    X := trimTo h.max_length (h.X ++ [events_value])
    y := trimTo h.max_length (h.y ++ [power_reference]) }

/-- Power model for one frequency layer (class `PowerModel`). -/
structure PowerModel where
  frequency : Int
  model : Regression
  hash : String
  history : History
  id : Nat
deriving DecidableEq, Repr

/-- Constructor `PowerModel.__init__`. -/
def PowerModel.initPM (frequency : Int) (history_window_size : Nat) :
    PowerModel :=
  ⟨frequency, Regression.initR, "uninitialized",
    ⟨history_window_size, [], []⟩, 0⟩

/-- Abstract solver: `Regression(fit_intercept, positive=True).fit(X, y)`,
returning the coefficient vector and the intercept.  The scikit-learn
solver is deterministic; its output is kept abstract. -/
def FitFn : Type := Bool → List (List ℚ) → List ℚ → (List ℚ × ℚ)

/-- Method `PowerModel.learn_power_model`: skip when below `min_samples`,
fit (intercept only at full history), discard the fit when the intercept is
outside `[min_intercept, max_intercept)`, otherwise adopt it, recompute the
hash and increment the id. -/
def learn_power_model (fitFn : FitFn) (m : PowerModel) (min_samples : Nat)
    (min_intercept max_intercept : ℚ) : PowerModel :=
  if m.history.X.length < min_samples then m
  else
    let fit_intercept : Bool := decide (m.history.X.length = m.history.max_length)
    let res := fitFn fit_intercept m.history.X m.history.y
    if ¬ (min_intercept ≤ res.2 ∧ res.2 < max_intercept) then m
    else
      let newModel : Regression := ⟨res.1, res.2, fit_intercept, true⟩
      { m with
        model := newModel
        hash := sha1hex (serializeModel newModel)
        id := m.id + 1 }

/-- Lexicographic comparison of character lists (Python tuple/str `<=`). -/
def lexLe : List Char → List Char → Bool
  | [], _ => true
  | _ :: _, [] => false
  | a :: as, b :: bs =>
      if a.toNat < b.toNat then true
      else if b.toNat < a.toNat then false
      else lexLe as bs

/-- Insert a pair into a key-sorted list (used to model Python `sorted`). -/
def insertSorted (p : String × ℚ) : List (String × ℚ) → List (String × ℚ)
  | [] => [p]
  | q :: t => if lexLe p.1.data q.1.data then p :: q :: t else q :: insertSorted p t

/-- Sort event pairs by event name ascending (Python `sorted(events.items())`;
dictionary keys are unique, so the key order decides). -/
def sortPairs (l : List (String × ℚ)) : List (String × ℚ) :=
  l.foldr insertSorted []

/-- Static method `PowerModel._extract_events_value`: values sorted by event
name. -/
def extract_events_value (events : List (String × ℚ)) : List ℚ :=
  (sortPairs events).map Prod.snd

/-- Method `PowerModel.store_report_in_history`. -/
def PowerModel.store_report_in_history (m : PowerModel) (power_reference : ℚ)
    (events : List (String × ℚ)) : PowerModel :=
  { m with history := m.history.store_report power_reference (extract_events_value events) }

/-- Method `PowerModel.compute_power_estimation`; raises `NotFittedError`
when the model has never been fitted. -/
def PowerModel.compute_power_estimation (m : PowerModel)
    (events : List (String × ℚ)) : Except PyError ℚ :=
  if m.model.fitted then Except.ok (m.model.predictVec (extract_events_value events))
  else Except.error PyError.notFittedError

/-- Method `PowerModel.cap_power_estimation`: subtract the intercept from the
target and global estimations, derive the ratio and clamp the power at 0. -/
def PowerModel.cap_power_estimation (m : PowerModel)
    (raw_target_power raw_global_power : ℚ) : ℚ × ℚ :=
  let target_power := raw_target_power - m.model.intercept
  let global_power := raw_global_power - m.model.intercept
  let r : ℚ := if 0 < global_power ∧ 0 < target_power then target_power / global_power else 0
  let power : ℚ := if 0 < target_power then target_power else 0
  (power, r)

/-- Method `PowerModel.apply_intercept_share`. -/
def PowerModel.apply_intercept_share (m : PowerModel) (target_power : ℚ)
    (target_ratio : ℚ) : ℚ :=
  target_power + target_ratio * m.model.intercept

/-- Python `int()` applied to a rational: truncation toward zero. -/
def pyInt (q : ℚ) : Int :=
  Int.tdiv q.num q.den

/-- Python `range(a, b, s)` for a positive step `s`, as a list of integers. -/
def pyRange (a b s : Int) : List Int :=
  (List.range (((b - a).toNat + (s.toNat - 1)) / s.toNat)).map
    (fun (k : Nat) => a + s * (k : Int))

/-- CPU topology value object (class `CPUTopology`); all magnitudes are
already in the canonical units (W and MHz) used by the constructor. -/
structure CPUTopology where
  tdp : ℚ
  freq_bclk : ℚ
  ratio_min : ℚ
  ratio_base : ℚ
  ratio_max : ℚ
deriving DecidableEq, Repr

/-- Constructor `CPUTopology.__init__`: `tdp` is converted to Watts and the
base clock and all three ratios are converted to MHz and divided by 100. -/
def CPUTopology.initT (tdp freq_bclk ratio_min ratio_base ratio_max : ℚ) :
    CPUTopology :=
  ⟨tdp, freq_bclk / 100, ratio_min / 100, ratio_base / 100, ratio_max / 100⟩

/-- Constructor with its Python error channel made explicit: the body of
`CPUTopology.__init__` is straight-line arithmetic and never raises. -/
def CPUTopology.initE (tdp freq_bclk ratio_min ratio_base ratio_max : ℚ) :
    Except PyError CPUTopology :=
  Except.ok (CPUTopology.initT tdp freq_bclk ratio_min ratio_base ratio_max)

/-- Method `CPUTopology.get_min_frequency`. -/
def CPUTopology.get_min_frequency (t : CPUTopology) : ℚ :=
  t.freq_bclk * t.ratio_min

/-- Method `CPUTopology.get_base_frequency`. -/
def CPUTopology.get_base_frequency (t : CPUTopology) : ℚ :=
  t.freq_bclk * t.ratio_base

/-- Method `CPUTopology.get_max_frequency`. -/
def CPUTopology.get_max_frequency (t : CPUTopology) : ℚ :=
  t.freq_bclk * t.ratio_max

/-- Method `CPUTopology.get_supported_frequencies`:
`range(int(min), int(max) + 1, int(freq_bclk))`. -/
def CPUTopology.get_supported_frequencies (t : CPUTopology) : List Int :=
  pyRange (pyInt t.get_min_frequency) (pyInt t.get_max_frequency + 1)
    (pyInt t.freq_bclk)

/-- Formula configuration (class `SmartWattsFormulaConfig`); quantities are
stored as magnitudes in their canonical unit (W, ms). -/
structure SmartWattsFormulaConfig where
  rapl_event : String
  min_samples_required : Nat
  history_window_size : Nat
  cpu_topology : CPUTopology
  scope : String
  real_time_mode : Bool
  error_threshold : ℚ
  reports_frequency_ms : ℚ
  socket_domain_value : String
deriving DecidableEq, Repr

/-- Constant `RAPL_GROUP`. -/
def RAPL_GROUP : String := "rapl"

/-- Constant `GLOBAL_GROUP`. -/
def GLOBAL_GROUP : String := "global"

/-- Constant `MSR_GROUP`. -/
def MSR_GROUP : String := "msr"

/-- Constant `CORE_GROUP`. -/
def CORE_GROUP : String := "core"

/-- Constant `APERF_EVENT`. -/
def APERF_EVENT : String := "APERF"

/-- Constant `MPERF_EVENT`. -/
def MPERF_EVENT : String := "MPERF"

/-- Constant `TIME_EVENT_PREFIX` (`"time_"`). -/
def timeEventPref : String := "time_"

/-- Function `create_exception_message_missing_index` from
smartwatts/exception.py. -/
def create_exception_message_missing_index (entity_name group_name entity_type : String) :
    String :=
  "There is a problem with the HWPCReport. An index for the " ++ entity_name ++
    " " ++ entity_type ++ " in " ++ group_name ++ " group cannot be found"

/-- Sub-frame of an input report for one (group, socket): an association
list from event name (column) to the per-core row values of that column. -/
abbrev Frame : Type := List (String × List ℚ)

/-- Input HWPC report: timestamp, sensor, target, metadata, and the nested
counter groups indexed by (group name, socket id). -/
structure HWPCReport where
  timestamp : Nat
  sensor : String
  target : String
  metadata : List (String × String)
  groups : List ((String × String) × Frame)
deriving DecidableEq, Repr

/-- Output power report with the metadata fields written by
`Smartwatts._gen_power_report`. -/
structure PowerReport where
  timestamp : Nat
  sensor : Option String
  target : String
  power : ℚ
  scope : String
  socket : String
  formula : String
  ratio : ℚ
  raw_power : ℚ
  error : ℚ
  metadata : List (String × String)
deriving DecidableEq, Repr

/-- Output formula diagnostic report with the metadata fields written by
`Smartwatts._gen_formula_report`. -/
structure FormulaReport where
  timestamp : Nat
  sensor : Option String
  target : String
  scope : String
  socket : String
  layer_frequency : Int
  pkg_frequency : ℚ
  samples : Nat
  id : Nat
  error : ℚ
  intercept : ℚ
  coef : List ℚ
deriving DecidableEq, Repr

/-- Report delivered to an observer of the formula via `observer.on_next`. -/
inductive Output where
  | power : PowerReport → Output
  | formula : FormulaReport → Output
deriving DecidableEq, Repr

/-- Whether an output is a formula diagnostic report. -/
def Output.isFormulaOut : Output → Bool
  | Output.power _ => false
  | Output.formula _ => true

/-- State of the stream operator (class `Smartwatts`): configuration, the
ordered tick buffer, the last seen sensor, and the per-layer model
registry. -/
structure Smartwatts where
  config : SmartWattsFormulaConfig
  ticks : List (Nat × List (String × HWPCReport))
  sensor : Option String
  models : List (Int × PowerModel)
deriving DecidableEq, Repr

/-- Method `Smartwatts._gen_models_dict`: one fresh power model per
supported frequency. -/
def gen_models_dict (config : SmartWattsFormulaConfig) : List (Int × PowerModel) :=
  config.cpu_topology.get_supported_frequencies.map
    (fun freq => (freq, PowerModel.initPM freq config.history_window_size))

/-- Constructor `Smartwatts.__init__`. -/
def Smartwatts.initS (config : SmartWattsFormulaConfig) : Smartwatts :=
  ⟨config, [], none, gen_models_dict config⟩

/-- Loop of `Smartwatts._get_frequency_layer` over the registry keys. -/
def get_frequency_layer_aux : Int → List Int → ℚ → Int
  | last_layer_freq, [], _ => last_layer_freq
  | last_layer_freq, current :: rest, frequency =>
      if frequency < (current : ℚ) then last_layer_freq
      else get_frequency_layer_aux current rest frequency

/-- Method `Smartwatts._get_frequency_layer`: scan the registry keys in
order, starting from `last_layer_freq = 0`. -/
def get_frequency_layer (st : Smartwatts) (frequency : ℚ) : Int :=
  get_frequency_layer_aux 0 (st.models.map Prod.fst) frequency

/-- Method `Smartwatts.compute_pkg_frequency`:
`base_frequency * APERF / MPERF` on defaultdict lookups; Python raises
`ZeroDivisionError` when the MPERF average is zero. -/
def compute_pkg_frequency (config : SmartWattsFormulaConfig)
    (system_msr : List (String × ℚ)) : Except PyError ℚ :=
  let aperf := lookupD system_msr APERF_EVENT
  let mperf := lookupD system_msr MPERF_EVENT
  if mperf = 0 then Except.error PyError.zeroDivisionError
  else Except.ok (config.cpu_topology.get_base_frequency * aperf / mperf)

/-- Method `Smartwatts.get_power_model`, also returning the layer key so
the caller can write the (in Python, in-place mutated) model back; a layer
absent from the registry raises `KeyError`. -/
def get_power_model_layer (st : Smartwatts) (system_core : List (String × ℚ)) :
    Except PyError (Int × PowerModel) := do
  let f ← compute_pkg_frequency st.config system_core
  let layer := get_frequency_layer st f
  match alookup st.models layer with
  | none => Except.error PyError.keyError
  | some m => Except.ok (layer, m)

/-- Method `Smartwatts.get_power_model` (model only). -/
def get_power_model (st : Smartwatts) (system_core : List (String × ℚ)) :
    Except PyError PowerModel :=
  (get_power_model_layer st system_core).map Prod.snd

/-- Method `Smartwatts._gen_rapl_events_group`: select the RAPL frame of the
configured socket, read the first row of the configured event column and
convert the raw energy counter to Watts
(`ldexp(value, -32) / (reports_frequency_in_ms / 1000)`). -/
def gen_rapl_events_group (config : SmartWattsFormulaConfig)
    (system_report : HWPCReport) : Except PyError (List (String × ℚ)) :=
  match alookup system_report.groups (RAPL_GROUP, config.socket_domain_value) with
  | none => Except.error (PyError.smartWattsException
      (create_exception_message_missing_index config.socket_domain_value RAPL_GROUP "socket"))
  | some rapl_report =>
    match alookup rapl_report config.rapl_event with
    | none => Except.error (PyError.smartWattsException
        (create_exception_message_missing_index config.rapl_event RAPL_GROUP "rapl event"))
    | some column =>
      match column with
      | [] => Except.error PyError.indexError
      | event_value :: _ =>
        if config.reports_frequency_ms = 0 then Except.error PyError.zeroDivisionError
        else
          Except.ok [(config.rapl_event,
            (event_value / 2 ^ 32) / (config.reports_frequency_ms / 1000))]

/-- Arithmetic mean of a column (`pandas.Series.mean`); columns are
non-empty in well-formed reports. -/
def listMean (l : List ℚ) : ℚ :=
  l.sum / l.length

/-- Method `Smartwatts._gen_msr_events_group`: per-event average across the
cores of the configured socket. -/
def gen_msr_events_group (config : SmartWattsFormulaConfig)
    (system_report : HWPCReport) : Except PyError (List (String × ℚ)) :=
  match alookup system_report.groups (MSR_GROUP, config.socket_domain_value) with
  | none => Except.error (PyError.smartWattsException
      (create_exception_message_missing_index config.socket_domain_value MSR_GROUP "socket"))
  | some mrs_report =>
      Except.ok (mrs_report.map (fun p => (p.1, listMean p.2)))

/-- Method `Smartwatts._gen_core_events_group`: per-event sum across cores,
excluding events whose name starts with the time prefix. -/
def gen_core_events_group (config : SmartWattsFormulaConfig)
    (report : HWPCReport) : Except PyError (List (String × ℚ)) :=
  match alookup report.groups (CORE_GROUP, config.socket_domain_value) with
  | none => Except.error (PyError.smartWattsException
      (create_exception_message_missing_index config.socket_domain_value CORE_GROUP "socket"))
  | some core_event_report =>
      Except.ok ((core_event_report.filter
        (fun p => ¬ (timeEventPref.data.isPrefixOf p.1.data))).map
          (fun p => (p.1, p.2.sum)))

/-- Accumulate one events group into a defaultdict accumulator. -/
def addEntry (acc : List (String × ℚ)) (k : String) (v : ℚ) : List (String × ℚ) :=
  match alookup acc k with
  | some w => updAssoc acc k (w + v)
  | none => acc ++ [(k, v)]

/-- Method `Smartwatts._gen_agg_core_report_from_running_targets`: sum the
core events groups of all running targets per event. -/
def gen_agg_core_report_from_running_targets (config : SmartWattsFormulaConfig)
    (targets_report : List (String × HWPCReport)) :
    Except PyError (List (String × ℚ)) :=
  targets_report.foldlM
    (fun acc p => do
      let core ← gen_core_events_group config p.2
      pure (core.foldl (fun a q => addEntry a q.1 q.2) acc))
    []

/-- Method `Smartwatts._gen_power_report` (arguments in source order). -/
def gen_power_report (st : Smartwatts) (timestamp : Nat) (target formula : String)
    (raw_power error power ratio : ℚ) (metadata : List (String × String)) :
    PowerReport :=
  ⟨timestamp, st.sensor, target, power, st.config.scope,
    st.config.socket_domain_value, formula, ratio, raw_power, error, metadata⟩

/-- Method `Smartwatts._gen_formula_report`. -/
def gen_formula_report (st : Smartwatts) (timestamp : Nat) (pkg_frequency : ℚ)
    (model : PowerModel) (error : ℚ) : FormulaReport :=
  ⟨timestamp, st.sensor, model.hash, st.config.scope,
    st.config.socket_domain_value, model.frequency, pkg_frequency,
    model.history.X.length, model.id, error, model.model.intercept,
    model.model.coef⟩

/-- Body of `Smartwatts._process_oldest_tick` after the tick has been popped:
`st` is the state with the oldest tick already removed. -/
def processTickCore (fitFn : FitFn) (st : Smartwatts) (timestamp : Nat)
    (hwpc_reports : List (String × HWPCReport)) :
    Except PyError (List PowerReport × List FormulaReport × Smartwatts) :=
  match alookup hwpc_reports "all" with
  | none => Except.ok ([], [], st)
  | some global_report => do
    let remaining := removeAssoc hwpc_reports "all"
    let rapl ← gen_rapl_events_group st.config global_report
    let avg_msr ← gen_msr_events_group st.config global_report
    let global_core ← gen_agg_core_report_from_running_targets st.config remaining
    let rapl_power ← match alookup rapl st.config.rapl_event with
      | none => Except.error PyError.keyError
      | some v => Except.ok v
    let raplReport := gen_power_report st timestamp RAPL_GROUP
      st.config.rapl_event 0 0 rapl_power 1 []
    if global_core = [] then Except.ok ([raplReport], [], st)
    else do
      let pkg_frequency ← compute_pkg_frequency st.config avg_msr
      let lm ← get_power_model_layer st avg_msr
      let layer := lm.1
      let model := lm.2
      match model.compute_power_estimation global_core with
      | Except.error PyError.notFittedError =>
        let m1 := model.store_report_in_history rapl_power global_core
        let m2 := learn_power_model fitFn m1 st.config.min_samples_required 0
          st.config.cpu_topology.tdp
        Except.ok ([raplReport], [],
          { st with models := updAssoc st.models layer m2 })
      | Except.error e => Except.error e
      | Except.ok raw_global_power => do
        let model_error := |rapl_power - raw_global_power|
        let globalReport := gen_power_report st timestamp GLOBAL_GROUP
          model.hash raw_global_power model_error raw_global_power 1 []
        let targetReports ← remaining.mapM (fun p => do
          let target_core ← gen_core_events_group st.config p.2
          let raw_target_power ← model.compute_power_estimation target_core
          let capped := model.cap_power_estimation raw_target_power raw_global_power
          let target_power := model.apply_intercept_share capped.1 capped.2
          pure (gen_power_report st timestamp p.1 model.hash raw_target_power
            (|target_power - raw_global_power|) target_power capped.2 p.2.metadata))
        let m1 := model.store_report_in_history rapl_power global_core
        let m2 := if st.config.error_threshold < model_error then
            learn_power_model fitFn m1 st.config.min_samples_required 0
              st.config.cpu_topology.tdp
          else m1
        let fr := gen_formula_report st timestamp pkg_frequency m2 model_error
        Except.ok (raplReport :: globalReport :: targetReports, [fr],
          { st with models := updAssoc st.models layer m2 })

/-- Method `Smartwatts._process_oldest_tick`: pop the oldest tick
(`popitem(last=False)`), then process it.  The first component of the result
is the state as mutated before any exception can be raised (the tick is
already removed from the buffer), matching the in-place mutation of the
Python object. -/
def processOldestTick (fitFn : FitFn) (st : Smartwatts) :
    Smartwatts × Except PyError (List PowerReport × List FormulaReport × Smartwatts) :=
  match st.ticks with
  | [] => (st, Except.error PyError.keyError)
  | (timestamp, hwpc_reports) :: rest =>
      let stP := { st with ticks := rest }
      (stP, processTickCore fitFn stP timestamp hwpc_reports)

/-- Ingestion of one report into the tick buffer
(`self.ticks.setdefault(ts, {}).update({target: report})`). -/
def insertTick (ticks : List (Nat × List (String × HWPCReport))) (ts : Nat)
    (target : String) (r : HWPCReport) : List (Nat × List (String × HWPCReport)) :=
  match ticks with
  | [] => [(ts, [(target, r)])]
  | (t, m) :: rest =>
      if t = ts then (t, updAssoc m target r) :: rest
      else (t, m) :: insertTick rest ts target r

/-- Method `Smartwatts.process_report`: buffer the report, remember the
sensor, and when enough ticks are buffered process the oldest one and
submit the resulting power reports (only those) to the observers.  The
first component is the state after the call; the second is what the
observers receive, or the exception that propagates to the caller. -/
def process_report (fitFn : FitFn) (st : Smartwatts) (report : HWPCReport) :
    Smartwatts × Except PyError (List Output) :=
  let st1 := { st with
    ticks := insertTick st.ticks report.timestamp report.target report
    sensor := some report.sensor }
  let threshold : Nat := if st1.config.real_time_mode then 2 else 5
  if threshold < st1.ticks.length then
    let pr := processOldestTick fitFn st1
    match pr.2 with
    | Except.error e => (pr.1, Except.error e)
    | Except.ok (power_reports, _formula_reports, st2) =>
        (st2, Except.ok (power_reports.map Output.power))
  else (st1, Except.ok [])

/-- Validity predicate written from the specification's words (section 4.1):
construction is said to fail when min > base, base > max, or any value of
the topology is not positive.  The source performs no such check; this
definition exists only to compare the specification against the code. -/
def specInvalidTopology (tdp freq_bclk ratio_min ratio_base ratio_max : ℚ) : Prop :=
  ratio_base < ratio_min ∨ ratio_max < ratio_base ∨ tdp ≤ 0 ∨ freq_bclk ≤ 0 ∨
    ratio_min ≤ 0 ∨ ratio_base ≤ 0 ∨ ratio_max ≤ 0

/-!  Generic facts about the embedded Python `range`. -/

/-!  Facts about the modelled content hash. -/

/-- Characters a hexadecimal digest is made of. -/
def hexCharList : List Char := "0123456789abcdef".data

/-- A 40-character hexadecimal string. -/
def isHex40 (s : String) : Prop :=
  s.data.length = 40 ∧ ∀ c ∈ s.data, c ∈ hexCharList

/-- Model state after an accepted fit (shorthand for the record built in the
accepting branch of `learn_power_model`). -/
def adoptedModel (fitFn : FitFn) (m : PowerModel) : PowerModel :=
  let res := fitFn (decide (m.history.X.length = m.history.max_length))
    m.history.X m.history.y
  { m with
    model := ⟨res.1, res.2, decide (m.history.X.length = m.history.max_length), true⟩
    hash := sha1hex (serializeModel
      ⟨res.1, res.2, decide (m.history.X.length = m.history.max_length), true⟩)
    id := m.id + 1 }

/-- Solver stub used by concrete scenarios: no features, zero intercept. -/
def fitFnW : FitFn := fun _ _ _ => ([], (0 : ℚ))

/-- Power model with one stored sample in a window of two. -/
def pmW : PowerModel :=
  ⟨1, Regression.initR, "uninitialized", ⟨2, [[1]], [5]⟩, 0⟩

/-- Data-dependent solver used by the refit counterexample: one coefficient
of 1 per feature of the first sample, intercept 1. -/
def fitFnB : FitFn := fun _ X _ => ((X.headD []).map (fun _ => (1 : ℚ)), 1)

/-- Model whose two-sample history is at capacity and holds two identical
samples. -/
def pmB0 : PowerModel :=
  ⟨1, Regression.initR, "uninitialized", ⟨2, [[2], [2]], [5, 5]⟩, 0⟩

/-- First adoption of a fit on `pmB0`. -/
def pmB1 : PowerModel := learn_power_model fitFnB pmB0 1 0 125

/-- Second adoption after storing a sample identical to the buffered ones:
the history content is unchanged, so the deterministic solver returns the
same parameters. -/
def pmB2 : PowerModel :=
  learn_power_model fitFnB (pmB1.store_report_in_history 5 [("e1", 2)]) 1 0 125

/-- Model whose two-sample window holds a single sample (below capacity, so
a fit of it has the intercept forced to 0 via `fit_intercept=False`). -/
def pmE2 : PowerModel :=
  ⟨1, Regression.initR, "uninitialized", ⟨2, [[2]], [5]⟩, 0⟩

/-- Reset twin of `pmW`: same history content and capacity, but a different
frequency, hash and revision id. -/
def pmWr : PowerModel :=
  ⟨9, Regression.initR, "uninitialized", ⟨2, [[1]], [5]⟩, 4⟩

/-- Topology whose supported frequencies are 1900, 2000 and 2100 MHz. -/
def topoC : CPUTopology := CPUTopology.initT 125 10000 1900 1800 2100

/-- Configuration over `topoC`, socket "0". -/
def cfgC : SmartWattsFormulaConfig :=
  ⟨"rapl-pkg", 1, 2, topoC, "cpu", true, 100, 1000, "0"⟩

/-- MSR averages giving a package frequency of 1800 MHz (the base
frequency) under `cfgC`. -/
def msrC : List (String × ℚ) := [("APERF", 1), ("MPERF", 1)]

/-!  Accounting invariant of the per-target attribution. -/

/-- Pointwise sum of feature vectors of length `n` (the aggregation of the
running targets' core events, at the level of extracted vectors). -/
def vecSum (n : Nat) (fs : List (List ℚ)) : List ℚ :=
  fs.foldr (fun v acc => List.zipWith (· + ·) v acc) (List.replicate n 0)

/-!  Engine-level claims: exception propagation and report emission. -/

/-- Topology with the single supported frequency layer 1 MHz. -/
def topoA : CPUTopology := CPUTopology.initT 125 100 100 100 100

/-- Real-time configuration over `topoA`: rapl event "rapl-pkg", min samples
1, window 2, error threshold 100 W, reports every 1000 ms, socket "0". -/
def cfgA : SmartWattsFormulaConfig :=
  ⟨"rapl-pkg", 1, 2, topoA, "cpu", true, 100, 1000, "0"⟩

/-- Reference report of target "all" carrying RAPL and MSR groups for
socket "0" (RAPL counter of one Joule worth of raw energy). -/
def rAll (ts : Nat) : HWPCReport :=
  ⟨ts, "s", "all", [], [(("rapl", "0"), [("rapl-pkg", [2 ^ 32])]),
    (("msr", "0"), [("APERF", [1]), ("MPERF", [1])])]⟩

/-- Report of a running target "t1" with one core event and one time event. -/
def rT1 (ts : Nat) : HWPCReport :=
  ⟨ts, "s", "t1", [], [(("core", "0"), [("e1", [2]), ("time_x", [9])])]⟩

/-- Reference report of target "all" with no groups at all (its RAPL index
for the configured socket is missing). -/
def rNoRapl (ts : Nat) : HWPCReport := ⟨ts, "s", "all", [], []⟩

/-- Deterministic solver: coefficient 1 per feature, intercept 0. -/
def fitA : FitFn := fun _ X _ => ((X.headD []).map (fun _ => (1 : ℚ)), 0)

/-- State after ingesting the groupless reference report at tick 1. -/
def stB1 : Smartwatts := (process_report fitA (Smartwatts.initS cfgA) (rNoRapl 1)).1

/-- State after also ingesting the groupless reference report at tick 2. -/
def stB2 : Smartwatts := (process_report fitA stB1 (rNoRapl 2)).1

/-- State after ingesting the reference report of tick 1. -/
def stA1 : Smartwatts := (process_report fitA (Smartwatts.initS cfgA) (rAll 1)).1

/-- State after also ingesting the target report of tick 1. -/
def stA2 : Smartwatts := (process_report fitA stA1 (rT1 1)).1

/-- State after ingesting the reference report of tick 2. -/
def stA3 : Smartwatts := (process_report fitA stA2 (rAll 2)).1

/-- State after ingesting tick 3, which processes tick 1 and trains the
layer-1 model (NotFitted path). -/
def stA4 : Smartwatts := (process_report fitA stA3 (rAll 3)).1

/-- State after also ingesting the target report of tick 3. -/
def stA5 : Smartwatts := (process_report fitA stA4 (rT1 3)).1

/-- State after ingesting tick 4, which processes tick 2 (no running
targets there, RAPL report only). -/
def stA6 : Smartwatts := (process_report fitA stA5 (rAll 4)).1

/-- State `stA6` right after ingesting the tick-5 reference report. -/
def stIns5 : Smartwatts :=
  { stA6 with ticks := insertTick stA6.ticks 5 "all" (rAll 5), sensor := some "s" }

/-- `stIns5` with its oldest tick (tick 3) popped. -/
def stOld5 : Smartwatts := (processOldestTick fitA stIns5).1

/-- Reports of tick 3: the reference report plus the running target "t1". -/
def tick3reps : List (String × HWPCReport) := [("all", rAll 3), ("t1", rT1 3)]

/-- Result triple of processing tick 3 from `stOld5` (the tick processed by
`process_report` on the fifth reference report). -/
def stA7res : List PowerReport × List FormulaReport × Smartwatts :=
  match processTickCore fitA stOld5 3 tick3reps with
  | Except.ok t => t
  | Except.error _ => ([], [], stOld5)

/-- The layer-1 model of `stA6` (fitted by the tick-1 training). -/
def mdlA : PowerModel :=
  match alookup stA6.models 1 with
  | some m => m
  | none => PowerModel.initPM 0 0

/-- Counting lemma for the ceiling-division length of `pyRange`. -/
theorem nat_lt_ceil_iff (m t k : Nat) (ht : 0 < t) :
    k < (m + (t - 1)) / t ↔ t * k < m := by
  rw [Nat.lt_iff_add_one_le, Nat.le_div_iff_mul_le ht,
    show (k + 1) * t = t * k + t from by ring]
  generalize t * k = K
  omega

/-- Membership in `pyRange a b s` for a positive step. -/
theorem mem_pyRange {a b s : Int} (hs : 0 < s) (x : Int) :
    x ∈ pyRange a b s ↔ ∃ k : ℕ, x = a + s * k ∧ x < b := by
  have ht : 0 < s.toNat := by omega
  have key : ∀ k : ℕ,
      (k < ((b - a).toNat + (s.toNat - 1)) / s.toNat) ↔ s * (k : Int) < b - a := by
    intro k
    rw [nat_lt_ceil_iff _ _ _ ht, Int.lt_toNat,
      show ((s.toNat * k : ℕ) : Int) = s * (k : Int) from by
        push_cast [Int.toNat_of_nonneg hs.le]; ring]
  unfold pyRange
  constructor
  · intro hx
    obtain ⟨k, hk, hkx⟩ := List.mem_map.1 hx
    have hk2 := List.mem_range.1 hk
    exact ⟨k, hkx.symm, by have := (key k).1 hk2; linarith⟩
  · rintro ⟨k, rfl, hxb⟩
    exact List.mem_map.2 ⟨k, List.mem_range.2 ((key k).2 (by linarith)), rfl⟩

/-- The embedded Python `range` is strictly ascending for a positive step. -/
theorem pyRange_pairwise {a b s : Int} (hs : 0 < s) :
    (pyRange a b s).Pairwise (· < ·) := by
  unfold pyRange
  have H : ∀ i j : ℕ, i < j → a + s * (i : Int) < a + s * (j : Int) := by
    intro i j hij
    have h1 : (i : Int) < (j : Int) := by exact_mod_cast hij
    have h2 := mul_lt_mul_of_pos_left h1 hs
    linarith
  exact List.Pairwise.map _ H (List.pairwise_lt_range _)

/-- C6 (counterexample).  The specification says construction fails with
`InvalidTopology` when min > base (among others); on the source, the
constructor of `CPUTopology` performs no validation at all: with
ratio_min = 4000 and ratio_base = 2300 (min > base, and also base > max),
construction succeeds and returns the rescaled topology. -/
theorem cpu_topology_invalid_input_accepted :
    specInvalidTopology 125 100 4000 2300 100 ∧
      CPUTopology.initE 125 100 4000 2300 100 =
        Except.ok (⟨125, 1, 40, 23, 1⟩ : CPUTopology) :=
  ⟨Or.inl (of_decide_eq_true (by with_unfolding_all rfl)),
    by with_unfolding_all rfl⟩

/-- C6 (amended).  CPU topology construction never fails: even on inputs the
specification calls invalid (min > base, base > max, or a non-positive
value), the constructor completes and returns the topology with TDP kept
as given and the base clock and the three ratios divided by 100. -/
theorem cpu_topology_construction_total
    (tdp freq_bclk ratio_min ratio_base ratio_max : ℚ)
    (_hinv : specInvalidTopology tdp freq_bclk ratio_min ratio_base ratio_max) :
    CPUTopology.initE tdp freq_bclk ratio_min ratio_base ratio_max =
      Except.ok (⟨tdp, freq_bclk / 100, ratio_min / 100, ratio_base / 100,
        ratio_max / 100⟩ : CPUTopology) :=
  rfl

/-- C6 (witness for the amended theorem). -/
theorem cpu_topology_construction_total_witness :
    specInvalidTopology 10 0 1 1 1 ∧
      CPUTopology.initE 10 0 1 1 1 =
        Except.ok (⟨10, 0 / 100, 1 / 100, 1 / 100, 1 / 100⟩ : CPUTopology) := by
  have h : specInvalidTopology 10 0 1 1 1 :=
    Or.inr (Or.inr (Or.inr (Or.inl (of_decide_eq_true (by with_unfolding_all rfl)))))
  exact ⟨h, cpu_topology_construction_total 10 0 1 1 1 h⟩

/-- C7 (counterexample).  The specification says that only the ratios are
divided by 100 and that `min_frequency = base_clock * ratio_min`; in the
source the base clock is divided by 100 as well: constructing the topology
with base clock 100 MHz and ratio_min 100 MHz stores `freq_bclk = 1` (not
100) and yields `min_frequency = 1`, not `100 * (100 / 100) = 100`. -/
theorem cpu_topology_base_clock_rescaled :
    (CPUTopology.initT 125 100 100 2300 4000).freq_bclk = 100 / 100 ∧
    (CPUTopology.initT 125 100 100 2300 4000).freq_bclk ≠ 100 ∧
    (CPUTopology.initT 125 100 100 2300 4000).get_min_frequency = 1 ∧
    (CPUTopology.initT 125 100 100 2300 4000).get_min_frequency ≠
      100 * ((100 : ℚ) / 100) :=
  ⟨rfl, of_decide_eq_true (by with_unfolding_all rfl),
    by with_unfolding_all rfl, of_decide_eq_true (by with_unfolding_all rfl)⟩

/-- C7 (amended).  Construction divides the base clock and the three ratios
by 100 (TDP is kept as given); the derived frequencies are
`(base_clock / 100) * (ratio / 100)`; `supported_frequencies` is the
strictly ascending sequence starting at `int(min_frequency)` with step
`int(base_clock / 100)` of the integers `≤ int(max_frequency)` of that
form (so `max_frequency` itself is included only when the step divides the
span). -/
theorem cpu_topology_scaling (tdp b r1 r2 r3 : ℚ)
    (hs : 0 < pyInt (b / 100)) :
    (CPUTopology.initT tdp b r1 r2 r3).tdp = tdp ∧
    (CPUTopology.initT tdp b r1 r2 r3).freq_bclk = b / 100 ∧
    (CPUTopology.initT tdp b r1 r2 r3).ratio_min = r1 / 100 ∧
    (CPUTopology.initT tdp b r1 r2 r3).ratio_base = r2 / 100 ∧
    (CPUTopology.initT tdp b r1 r2 r3).ratio_max = r3 / 100 ∧
    (CPUTopology.initT tdp b r1 r2 r3).get_min_frequency = b / 100 * (r1 / 100) ∧
    (CPUTopology.initT tdp b r1 r2 r3).get_base_frequency = b / 100 * (r2 / 100) ∧
    (CPUTopology.initT tdp b r1 r2 r3).get_max_frequency = b / 100 * (r3 / 100) ∧
    (∀ x : Int, x ∈ (CPUTopology.initT tdp b r1 r2 r3).get_supported_frequencies ↔
      ∃ k : ℕ, x = pyInt (b / 100 * (r1 / 100)) + pyInt (b / 100) * k ∧
        x ≤ pyInt (b / 100 * (r3 / 100))) ∧
    (CPUTopology.initT tdp b r1 r2 r3).get_supported_frequencies.Pairwise (· < ·) := by
  refine ⟨rfl, rfl, rfl, rfl, rfl, rfl, rfl, rfl, ?_, ?_⟩
  · intro x
    have h := mem_pyRange (a := pyInt (b / 100 * (r1 / 100)))
      (b := pyInt (b / 100 * (r3 / 100)) + 1) hs x
    exact ⟨fun hx => by
        obtain ⟨k, hk1, hk2⟩ := h.1 hx
        exact ⟨k, hk1, by omega⟩,
      fun hx => by
        obtain ⟨k, hk1, hk2⟩ := hx
        exact h.2 ⟨k, hk1, by omega⟩⟩
  · exact pyRange_pairwise hs

/-- C7 (witness for the amended theorem). -/
theorem cpu_topology_scaling_witness :
    0 < pyInt ((100 : ℚ) / 100) ∧
      (CPUTopology.initT 125 100 100 2300 4000).get_min_frequency =
        100 / 100 * ((100 : ℚ) / 100) := by
  have hs : 0 < pyInt ((100 : ℚ) / 100) := of_decide_eq_true (by with_unfolding_all rfl)
  exact ⟨hs, (cpu_topology_scaling 125 100 100 2300 4000 hs).2.2.2.2.2.1⟩

/-- Length of the digit list produced by `hexDigits`. -/
theorem hexDigits_length : ∀ (k n : Nat), (hexDigits k n).length = k := by
  intro k
  induction k with
  | zero => intro n; rfl
  | succ k ih =>
      intro n
      simp [hexDigits, ih]

/-- Every nibble below 16 maps to a hexadecimal character. -/
theorem hexChar_mem : ∀ r < 16, hexChar r ∈ hexCharList := by decide

/-- Every character produced by `hexDigits` is a hexadecimal character. -/
theorem hexDigits_mem : ∀ (k n : Nat), ∀ c ∈ hexDigits k n, c ∈ hexCharList := by
  intro k
  induction k with
  | zero => intro n c hc; cases hc
  | succ k ih =>
      intro n c hc
      rcases List.mem_append.1 hc with h | h
      · exact ih _ c h
      · rcases List.mem_singleton.1 h with rfl
        exact hexChar_mem _ (Nat.mod_lt _ (by norm_num))

/-- The modelled digest is always a 40-character hexadecimal string. -/
theorem sha1hex_isHex40 (n : Nat) : isHex40 (sha1hex n) :=
  ⟨hexDigits_length 40 n, fun c hc => hexDigits_mem 40 n c hc⟩

/-- Unfolding lemma for an accepted fit: enough samples and an intercept in
range make `learn_power_model` adopt the solver result wholesale. -/
theorem learn_adopt (fitFn : FitFn) (m : PowerModel) (minS : Nat) (minI maxI : ℚ)
    (hlen : minS ≤ m.history.X.length)
    (hacc : minI ≤ (fitFn (decide (m.history.X.length = m.history.max_length))
        m.history.X m.history.y).2 ∧
      (fitFn (decide (m.history.X.length = m.history.max_length))
        m.history.X m.history.y).2 < maxI) :
    learn_power_model fitFn m minS minI maxI = adoptedModel fitFn m := by
  simp only [learn_power_model, adoptedModel]
  rw [if_neg (Nat.not_lt.2 hlen), if_neg (not_not_intro hacc)]

/-- Case analysis: `learn_power_model` either leaves the model untouched or
adopts the solver result. -/
theorem learn_power_model_cases (fitFn : FitFn) (m : PowerModel) (minS : Nat)
    (minI maxI : ℚ) :
    learn_power_model fitFn m minS minI maxI = m ∨
      learn_power_model fitFn m minS minI maxI = adoptedModel fitFn m := by
  simp only [learn_power_model, adoptedModel]
  split_ifs
  · exact Or.inl rfl
  · exact Or.inr rfl
  · exact Or.inl rfl

/-- C2.  Behaviour of `PowerModel.learn_power_model` for any solver
satisfying the scikit-learn contract used by the source
(`positive=True` gives non-negative coefficients; `fit_intercept=False`
forces the intercept to 0): below `min_samples` the model is unchanged;
otherwise the regression is fitted with the intercept fitted only at full
history; a fit whose intercept is outside `[min_intercept, max_intercept)`
is discarded leaving regression, hash and id intact; an accepted fit is
adopted, the 40-hex hash is recomputed from it and the id grows by 1. -/
theorem learn_power_model_spec (fitFn : FitFn)
    (hpos : ∀ (flag : Bool) (X : List (List ℚ)) (y : List ℚ),
      ∀ v ∈ (fitFn flag X y).1, 0 ≤ v)
    (hzero : ∀ (X : List (List ℚ)) (y : List ℚ), (fitFn false X y).2 = 0)
    (m : PowerModel) (min_samples : Nat) (min_intercept max_intercept : ℚ) :
    (m.history.X.length < min_samples →
      learn_power_model fitFn m min_samples min_intercept max_intercept = m) ∧
    (min_samples ≤ m.history.X.length →
      ∀ (c : List ℚ) (b : ℚ),
        fitFn (decide (m.history.X.length = m.history.max_length))
          m.history.X m.history.y = (c, b) →
        (∀ v ∈ c, 0 ≤ v) ∧
        (m.history.X.length ≠ m.history.max_length → b = 0) ∧
        (¬ (min_intercept ≤ b ∧ b < max_intercept) →
          learn_power_model fitFn m min_samples min_intercept max_intercept = m) ∧
        (min_intercept ≤ b ∧ b < max_intercept →
          (learn_power_model fitFn m min_samples min_intercept max_intercept).model
              = ⟨c, b, decide (m.history.X.length = m.history.max_length), true⟩ ∧
          (learn_power_model fitFn m min_samples min_intercept max_intercept).hash
              = sha1hex (serializeModel
                  ⟨c, b, decide (m.history.X.length = m.history.max_length), true⟩) ∧
          isHex40 (learn_power_model fitFn m min_samples min_intercept max_intercept).hash ∧
          (learn_power_model fitFn m min_samples min_intercept max_intercept).id
              = m.id + 1 ∧
          (learn_power_model fitFn m min_samples min_intercept max_intercept).history
              = m.history ∧
          (learn_power_model fitFn m min_samples min_intercept max_intercept).frequency
              = m.frequency)) := by
  constructor
  · intro h
    simp only [learn_power_model, if_pos h]
  · intro hge c b hfit
    refine ⟨fun v hv => hpos _ _ _ v (by rw [hfit]; exact hv), ?_, ?_, ?_⟩
    · intro hne
      rw [decide_eq_false hne] at hfit
      have h0 := hzero m.history.X m.history.y
      rw [hfit] at h0
      exact h0
    · intro hrej
      simp only [learn_power_model]
      rw [if_neg (Nat.not_lt.2 hge), hfit, if_pos hrej]
    · intro hacc
      have hc : c = (fitFn (decide (m.history.X.length = m.history.max_length))
          m.history.X m.history.y).1 := by rw [hfit]
      have hb : b = (fitFn (decide (m.history.X.length = m.history.max_length))
          m.history.X m.history.y).2 := by rw [hfit]
      subst hc
      subst hb
      rw [learn_adopt fitFn m min_samples min_intercept max_intercept hge hacc]
      exact ⟨rfl, rfl, sha1hex_isHex40 _, rfl, rfl, rfl⟩

/-- C2 (witness): the solver stub satisfies the contract and the fit of a
one-sample history in a two-sample window is adopted. -/
theorem learn_power_model_spec_witness :
    (∀ (flag : Bool) (X : List (List ℚ)) (y : List ℚ),
      ∀ v ∈ (fitFnW flag X y).1, 0 ≤ v) ∧
    (∀ (X : List (List ℚ)) (y : List ℚ), (fitFnW false X y).2 = 0) ∧
    (pmW.history.X.length < 2 → learn_power_model fitFnW pmW 2 0 125 = pmW) := by
  have hpos : ∀ (flag : Bool) (X : List (List ℚ)) (y : List ℚ),
      ∀ v ∈ (fitFnW flag X y).1, 0 ≤ v := by
    intro _ _ _ v hv
    cases hv
  have hzero : ∀ (X : List (List ℚ)) (y : List ℚ), (fitFnW false X y).2 = 0 :=
    fun _ _ => rfl
  exact ⟨hpos, fun _ _ => rfl,
    (learn_power_model_spec fitFnW hpos hzero pmW 2 0 125).1⟩

/-- C8 (amended).  A model's revision id is non-decreasing under the learn
and store operations, and a change of the content hash forces an increment
of exactly 1; the converse direction of the specification's "iff" fails
(see the counterexample): an increment may leave the hash unchanged. -/
theorem revision_id_monotone (fitFn : FitFn) (m : PowerModel) (min_samples : Nat)
    (min_intercept max_intercept : ℚ) (p : ℚ) (ev : List (String × ℚ)) :
    m.id ≤ (learn_power_model fitFn m min_samples min_intercept max_intercept).id ∧
    ((learn_power_model fitFn m min_samples min_intercept max_intercept).hash ≠ m.hash →
      (learn_power_model fitFn m min_samples min_intercept max_intercept).id = m.id + 1) ∧
    (m.store_report_in_history p ev).id = m.id ∧
    (m.store_report_in_history p ev).hash = m.hash := by
  refine ⟨?_, ?_, rfl, rfl⟩
  · rcases learn_power_model_cases fitFn m min_samples min_intercept max_intercept with h | h
    · rw [h]
    · rw [h]; exact Nat.le_succ m.id
  · intro hne
    rcases learn_power_model_cases fitFn m min_samples min_intercept max_intercept with h | h
    · rw [h] at hne; exact absurd rfl hne
    · rw [h]; rfl

/-- C8 (witness for the amended theorem): instantiation at a concrete model
and solver. -/
theorem revision_id_monotone_witness :
    pmW.id ≤ (learn_power_model fitFnW pmW 1 0 125).id ∧
    ((learn_power_model fitFnW pmW 1 0 125).hash ≠ pmW.hash →
      (learn_power_model fitFnW pmW 1 0 125).id = pmW.id + 1) ∧
    (pmW.store_report_in_history 5 [("e1", 1)]).id = pmW.id ∧
    (pmW.store_report_in_history 5 [("e1", 1)]).hash = pmW.hash :=
  revision_id_monotone fitFnW pmW 1 0 125 5 [("e1", 1)]

/-- C8 (counterexample).  The claim says the revision id increments iff the
content hash changes; on the source, refitting a full history whose content
did not change (one identical sample stored into a full window) adopts the
same parameters: the hash stays the same while the id still increments. -/
theorem revision_increment_without_hash_change :
    pmB2.id = pmB1.id + 1 ∧ pmB2.hash = pmB1.hash ∧ pmB1.hash ≠ pmB0.hash :=
  ⟨by with_unfolding_all rfl, by with_unfolding_all rfl,
    of_decide_eq_true (by with_unfolding_all rfl)⟩

/-- C9 (counterexample).  The claim says any two successful fits that
produce the same coefficients and intercept yield the same hash; on the
source the hash is sha1 of the pickled estimator, which also carries the
`fit_intercept` constructor flag: an adopted fit of a full history (flag
true) and an adopted fit of a below-capacity history (flag false) can
produce identical coefficients and identical intercepts yet different
hashes. -/
theorem hash_not_function_of_parameters :
    (learn_power_model fitA pmB0 1 0 125).model.coef
        = (learn_power_model fitA pmE2 1 0 125).model.coef ∧
    (learn_power_model fitA pmB0 1 0 125).model.intercept
        = (learn_power_model fitA pmE2 1 0 125).model.intercept ∧
    (learn_power_model fitA pmB0 1 0 125).id = pmB0.id + 1 ∧
    (learn_power_model fitA pmE2 1 0 125).id = pmE2.id + 1 ∧
    (learn_power_model fitA pmB0 1 0 125).hash
        ≠ (learn_power_model fitA pmE2 1 0 125).hash :=
  ⟨by with_unfolding_all rfl, by with_unfolding_all rfl,
    by with_unfolding_all rfl, by with_unfolding_all rfl,
    of_decide_eq_true (by with_unfolding_all rfl)⟩

/-- C9 (amended).  The content hash is a deterministic function of the
whole fit, not of the fitted parameters alone: fitting the same history
(same samples, same capacity) with the same solver through any two models
— in particular a model and its reset twin — adopts identical regressions
and yields identical hashes, whatever the two models' previous hashes,
revision ids or intercept bounds were. -/
theorem hash_replay_determinism (fitFn : FitFn) (m1 m2 : PowerModel)
    (minS1 minS2 : Nat) (minI1 maxI1 minI2 maxI2 : ℚ)
    (hX : m1.history.X = m2.history.X)
    (hy : m1.history.y = m2.history.y)
    (hmax : m1.history.max_length = m2.history.max_length)
    (hlen1 : minS1 ≤ m1.history.X.length)
    (hlen2 : minS2 ≤ m2.history.X.length)
    (hacc1 : minI1 ≤ (fitFn (decide (m1.history.X.length = m1.history.max_length))
        m1.history.X m1.history.y).2 ∧
      (fitFn (decide (m1.history.X.length = m1.history.max_length))
        m1.history.X m1.history.y).2 < maxI1)
    (hacc2 : minI2 ≤ (fitFn (decide (m2.history.X.length = m2.history.max_length))
        m2.history.X m2.history.y).2 ∧
      (fitFn (decide (m2.history.X.length = m2.history.max_length))
        m2.history.X m2.history.y).2 < maxI2) :
    (learn_power_model fitFn m1 minS1 minI1 maxI1).hash
        = (learn_power_model fitFn m2 minS2 minI2 maxI2).hash ∧
    (learn_power_model fitFn m1 minS1 minI1 maxI1).model
        = (learn_power_model fitFn m2 minS2 minI2 maxI2).model := by
  rw [learn_adopt fitFn m1 minS1 minI1 maxI1 hlen1 hacc1,
    learn_adopt fitFn m2 minS2 minI2 maxI2 hlen2 hacc2]
  simp only [adoptedModel]
  rw [hX, hy, hmax]
  exact ⟨rfl, rfl⟩

/-- C9 (witness for the amended theorem): the one-sample history of `pmW`
replayed through its reset twin `pmWr` gives the same hash. -/
theorem hash_replay_determinism_witness :
    (pmW.history.X = pmWr.history.X ∧
      pmW.history.y = pmWr.history.y ∧
      pmW.history.max_length = pmWr.history.max_length ∧
      1 ≤ pmW.history.X.length ∧
      1 ≤ pmWr.history.X.length ∧
      ((0 : ℚ) ≤ (fitFnW (decide (pmW.history.X.length = pmW.history.max_length))
          pmW.history.X pmW.history.y).2 ∧
        (fitFnW (decide (pmW.history.X.length = pmW.history.max_length))
          pmW.history.X pmW.history.y).2 < 125) ∧
      ((0 : ℚ) ≤ (fitFnW (decide (pmWr.history.X.length = pmWr.history.max_length))
          pmWr.history.X pmWr.history.y).2 ∧
        (fitFnW (decide (pmWr.history.X.length = pmWr.history.max_length))
          pmWr.history.X pmWr.history.y).2 < 125)) ∧
    (learn_power_model fitFnW pmW 1 0 125).hash
        = (learn_power_model fitFnW pmWr 1 0 125).hash := by
  have hX : pmW.history.X = pmWr.history.X := by with_unfolding_all rfl
  have hy : pmW.history.y = pmWr.history.y := by with_unfolding_all rfl
  have hmax : pmW.history.max_length = pmWr.history.max_length := by
    with_unfolding_all rfl
  have hlen1 : 1 ≤ pmW.history.X.length := of_decide_eq_true (by with_unfolding_all rfl)
  have hlen2 : 1 ≤ pmWr.history.X.length := of_decide_eq_true (by with_unfolding_all rfl)
  have hacc1 : (0 : ℚ) ≤ (fitFnW (decide (pmW.history.X.length = pmW.history.max_length))
      pmW.history.X pmW.history.y).2 ∧
      (fitFnW (decide (pmW.history.X.length = pmW.history.max_length))
        pmW.history.X pmW.history.y).2 < 125 :=
    ⟨of_decide_eq_true (by with_unfolding_all rfl),
      of_decide_eq_true (by with_unfolding_all rfl)⟩
  have hacc2 : (0 : ℚ) ≤ (fitFnW (decide (pmWr.history.X.length = pmWr.history.max_length))
      pmWr.history.X pmWr.history.y).2 ∧
      (fitFnW (decide (pmWr.history.X.length = pmWr.history.max_length))
        pmWr.history.X pmWr.history.y).2 < 125 :=
    ⟨of_decide_eq_true (by with_unfolding_all rfl),
      of_decide_eq_true (by with_unfolding_all rfl)⟩
  exact ⟨⟨hX, hy, hmax, hlen1, hlen2, hacc1, hacc2⟩,
    (hash_replay_determinism fitFnW pmW pmWr 1 1 0 125 0 125
      hX hy hmax hlen1 hlen2 hacc1 hacc2).1⟩

/-- Invariant of the `_get_frequency_layer` scan: starting from a layer
`last` at most `f` and strictly below every remaining key, the scan returns
the largest key of `last :: ks` whose value is at most `f`. -/
theorem layer_aux_spec (f : ℚ) :
    ∀ (ks : List Int) (last : Int), ks.Pairwise (· < ·) → (∀ k ∈ ks, last < k) →
      (last : ℚ) ≤ f →
      get_frequency_layer_aux last ks f ∈ last :: ks ∧
      ((get_frequency_layer_aux last ks f : ℚ) ≤ f) ∧
      ∀ k ∈ last :: ks, (k : ℚ) ≤ f → k ≤ get_frequency_layer_aux last ks f := by
  intro ks
  induction ks with
  | nil =>
      intro last _ _ hlast
      refine ⟨List.mem_singleton.2 rfl, hlast, ?_⟩
      intro k hk _
      rcases List.mem_singleton.1 hk with rfl
      exact le_refl _
  | cons a t ih =>
      intro last hpw hgt hlast
      by_cases hf : f < (a : ℚ)
      · simp only [get_frequency_layer_aux, if_pos hf]
        refine ⟨List.mem_cons_self _ _, hlast, ?_⟩
        intro k hk hkf
        rcases List.mem_cons.1 hk with rfl | hk2
        · exact le_refl _
        · rcases List.mem_cons.1 hk2 with rfl | hk3
          · exact absurd hkf (not_le.2 hf)
          · have hak : a < k := (List.pairwise_cons.1 hpw).1 k hk3
            have h1 : (a : ℚ) < (k : ℚ) := by exact_mod_cast hak
            linarith
      · push_neg at hf
        simp only [get_frequency_layer_aux, if_neg (not_lt.2 hf)]
        have hpw2 := (List.pairwise_cons.1 hpw).2
        have hgt2 : ∀ k ∈ t, a < k := (List.pairwise_cons.1 hpw).1
        obtain ⟨hmem, hle, hmax⟩ := ih a hpw2 hgt2 hf
        refine ⟨List.mem_cons.2 (Or.inr hmem), hle, ?_⟩
        intro k hk hkf
        rcases List.mem_cons.1 hk with rfl | hk2
        · have ha := hmax a (List.mem_cons_self _ _) hf
          have hla := hgt a (List.mem_cons_self _ _)
          omega
        · exact hmax k hk2 hkf

/-- C3 (amended).  For a measured frequency at or above the smallest layer,
the lookup returns the largest supported layer at most the frequency; but
for a frequency strictly below the smallest layer it returns 0, which is
not a registry key, rather than clamping to the smallest layer. -/
theorem get_frequency_layer_spec (st : Smartwatts) (f : ℚ) (a : Int) (t : List Int)
    (hks : st.models.map Prod.fst = a :: t)
    (hpw : (a :: t).Pairwise (· < ·))
    (hpos : 0 < a) :
    (f < (a : ℚ) → get_frequency_layer st f = 0) ∧
    ((a : ℚ) ≤ f →
      get_frequency_layer st f ∈ a :: t ∧
      ((get_frequency_layer st f : ℚ) ≤ f) ∧
      ∀ k ∈ a :: t, (k : ℚ) ≤ f → k ≤ get_frequency_layer st f) := by
  unfold get_frequency_layer
  rw [hks]
  constructor
  · intro hf
    simp only [get_frequency_layer_aux, if_pos hf]
  · intro hf
    have hgt : ∀ k ∈ a :: t, (0 : Int) < k := by
      intro k hk
      rcases List.mem_cons.1 hk with rfl | hk2
      · exact hpos
      · have := (List.pairwise_cons.1 hpw).1 k hk2
        omega
    have hlast : ((0 : Int) : ℚ) ≤ f := by
      have h1 : ((a : Int) : ℚ) ≤ f := hf
      have h2 : (0 : ℚ) < (a : ℚ) := by exact_mod_cast hpos
      push_cast
      linarith
    obtain ⟨hmem, hle, hmax⟩ := layer_aux_spec f (a :: t) 0 hpw hgt hlast
    have hres : a ≤ get_frequency_layer_aux 0 (a :: t) f :=
      hmax a (List.mem_cons.2 (Or.inr (List.mem_cons_self _ _))) hf
    refine ⟨?_, hle, fun k hk hkf => hmax k (List.mem_cons.2 (Or.inr hk)) hkf⟩
    rcases List.mem_cons.1 hmem with h0 | h
    · omega
    · exact h

/-- C3 (counterexample).  The claim says a frequency below the minimum
supported frequency selects the model of the smallest layer and that the
lookup never returns nothing; on the source, with layers 1900/2000/2100 MHz
and a measured frequency of 1800 MHz, `_get_frequency_layer` returns 0 (not
1900), and `get_power_model` raises `KeyError` because 0 is not a registry
key. -/
theorem frequency_layer_below_min_returns_zero :
    (Smartwatts.initS cfgC).models.map Prod.fst = [1900, 2000, 2100] ∧
    get_frequency_layer (Smartwatts.initS cfgC) 1800 = 0 ∧
    get_power_model (Smartwatts.initS cfgC) msrC = Except.error PyError.keyError :=
  ⟨by with_unfolding_all rfl, by with_unfolding_all rfl, by with_unfolding_all rfl⟩

/-- C3 (witness for the amended theorem): with layers 1900/2000/2100 and a
frequency of 2050, the lookup returns a layer at most 2050 that is the
largest such layer. -/
theorem get_frequency_layer_spec_witness :
    ((Smartwatts.initS cfgC).models.map Prod.fst = 1900 :: [2000, 2100] ∧
      ((1900 : Int) :: [2000, 2100]).Pairwise (· < ·) ∧
      (0 : Int) < 1900) ∧
    ((2050 : ℚ) < ((1900 : Int) : ℚ) →
      get_frequency_layer (Smartwatts.initS cfgC) 2050 = 0) ∧
    (((1900 : Int) : ℚ) ≤ 2050 →
      get_frequency_layer (Smartwatts.initS cfgC) 2050 ∈ (1900 : Int) :: [2000, 2100] ∧
      ((get_frequency_layer (Smartwatts.initS cfgC) 2050 : ℚ) ≤ 2050) ∧
      ∀ k ∈ (1900 : Int) :: [2000, 2100], (k : ℚ) ≤ 2050 →
        k ≤ get_frequency_layer (Smartwatts.initS cfgC) 2050) := by
  have h1 : (Smartwatts.initS cfgC).models.map Prod.fst = 1900 :: [2000, 2100] := by
    with_unfolding_all rfl
  have h2 : ((1900 : Int) :: [2000, 2100]).Pairwise (· < ·) := by decide
  have h3 : (0 : Int) < 1900 := by decide
  exact ⟨⟨h1, h2, h3⟩,
    get_frequency_layer_spec (Smartwatts.initS cfgC) 2050 1900 [2000, 2100] h1 h2 h3⟩

/-- Dot product with a zero vector. -/
theorem dot_replicate_zero : ∀ c : List ℚ, dotProduct c (List.replicate c.length 0) = 0 := by
  intro c
  induction c with
  | nil => rfl
  | cons a t ih =>
      show dotProduct (a :: t) (List.replicate (t.length + 1) 0) = 0
      rw [List.replicate_succ]
      simp only [dotProduct, List.zipWith_cons_cons, List.sum_cons, mul_zero, zero_add]
      exact ih

/-- Length of a pointwise sum of vectors of length `n`. -/
theorem vecSum_length (n : Nat) :
    ∀ fs : List (List ℚ), (∀ f ∈ fs, f.length = n) → (vecSum n fs).length = n := by
  intro fs
  induction fs with
  | nil => intro _; simp [vecSum]
  | cons f t ih =>
      intro h
      have hf := h f (List.mem_cons_self _ _)
      have ht := ih (fun g hg => h g (List.mem_cons.2 (Or.inr hg)))
      show (List.zipWith (· + ·) f (vecSum n t)).length = n
      rw [List.length_zipWith, hf, ht, min_self]

/-- The dot product distributes over the pointwise sum of two vectors that
are at least as long as the coefficient vector. -/
theorem dot_zipWith_add :
    ∀ (c f g : List ℚ), c.length ≤ f.length → c.length ≤ g.length →
      dotProduct c (List.zipWith (· + ·) f g) = dotProduct c f + dotProduct c g := by
  intro c
  induction c with
  | nil => intro f g _ _; simp [dotProduct]
  | cons a c ih =>
      intro f g hf hg
      match f, g with
      | [], _ => simp at hf
      | _, [] => simp at hg
      | x :: f, y :: g =>
          simp only [List.length_cons, Nat.add_le_add_iff_right] at hf hg
          simp only [dotProduct, List.zipWith_cons_cons, List.sum_cons] at *
          rw [ih f g hf hg]
          ring

/-- Dot product of the aggregated vector = sum of per-target dot products. -/
theorem dot_vecSum (c : List ℚ) :
    ∀ fs : List (List ℚ), (∀ f ∈ fs, f.length = c.length) →
      dotProduct c (vecSum c.length fs) = (fs.map (dotProduct c)).sum := by
  intro fs
  induction fs with
  | nil => intro _; exact dot_replicate_zero c
  | cons f t ih =>
      intro h
      have hf := h f (List.mem_cons_self _ _)
      have ht : ∀ g ∈ t, g.length = c.length := fun g hg => h g (List.mem_cons.2 (Or.inr hg))
      show dotProduct c (List.zipWith (· + ·) f (vecSum c.length t)) = _
      rw [dot_zipWith_add c f (vecSum c.length t) (le_of_eq hf.symm)
        (le_of_eq (vecSum_length c.length t ht).symm), ih ht]
      simp

/-- Non-negativity of a dot product of non-negative vectors. -/
theorem dot_nonneg :
    ∀ (c f : List ℚ), (∀ v ∈ c, 0 ≤ v) → (∀ v ∈ f, 0 ≤ v) → 0 ≤ dotProduct c f := by
  intro c
  induction c with
  | nil => intro f _ _; simp [dotProduct]
  | cons a c ih =>
      intro f hc hf
      match f with
      | [] => simp [dotProduct]
      | x :: f =>
          simp only [dotProduct, List.zipWith_cons_cons, List.sum_cons]
          have h1 : 0 ≤ a * x :=
            mul_nonneg (hc a (List.mem_cons_self _ _)) (hf x (List.mem_cons_self _ _))
          have h2 : 0 ≤ dotProduct c f :=
            ih f (fun v hv => hc v (List.mem_cons.2 (Or.inr hv)))
              (fun v hv => hf v (List.mem_cons.2 (Or.inr hv)))
          simpa [dotProduct] using add_nonneg h1 h2

/-- Sum of a pointwise sum of two mapped functions. -/
theorem sum_map_add {α : Type} (l : List α) (f g : α → ℚ) :
    (l.map (fun x => f x + g x)).sum = (l.map f).sum + (l.map g).sum := by
  induction l with
  | nil => simp
  | cons a t ih => simp only [List.map_cons, List.sum_cons, ih]; ring

/-- Closed form of capping followed by intercept sharing: with raw target
power `b + s` and raw global power `b + S` (where `b` is the model's
intercept), the final target power is `s` plus its proportional share of
the intercept when the decapitated global power is positive. -/
theorem cap_share_eq (m : PowerModel) (s S : ℚ) (hs : 0 ≤ s) :
    m.apply_intercept_share
      (m.cap_power_estimation (m.model.intercept + s) (m.model.intercept + S)).1
      (m.cap_power_estimation (m.model.intercept + s) (m.model.intercept + S)).2
    = s + (if 0 < S then s / S * m.model.intercept else 0) := by
  unfold PowerModel.cap_power_estimation PowerModel.apply_intercept_share
  simp only [add_sub_cancel_left]
  by_cases hS : 0 < S
  · by_cases hs0 : 0 < s
    · simp [hS, hs0]
    · have hz : s = 0 := le_antisymm (not_lt.1 hs0) hs
      subst hz
      simp [hS]
  · have hand : ¬ (0 < S ∧ 0 < s) := fun h => hS h.1
    by_cases hs0 : 0 < s
    · simp [hand, hS, hs0]
    · have hz : s = 0 := le_antisymm (not_lt.1 hs0) hs
      subst hz
      simp [hand, hS]

/-- C1.  Accounting invariant of the per-target attribution of
`_process_oldest_tick`: with a fitted model whose intercept is
non-negative (guaranteed by `learn_power_model`-s bounds `[0, TDP)`) and
whose coefficients are non-negative (the `positive=True` solver contract),
non-negative per-target feature vectors aligned with the coefficients, the
global feature vector being their pointwise sum (which is how
`_gen_agg_core_report_from_running_targets` builds it), and the raw global
power predicted on that sum, the sum of the final per-target powers (after
`cap_power_estimation` and `apply_intercept_share`) never exceeds the raw
global power prediction. -/
theorem power_accounting (m : PowerModel) (targets : List (List ℚ))
    (fglob : List ℚ) (raw_global : ℚ)
    (hb : 0 ≤ m.model.intercept)
    (hc : ∀ v ∈ m.model.coef, 0 ≤ v)
    (hlen : ∀ f ∈ targets, f.length = m.model.coef.length)
    (hnn : ∀ f ∈ targets, ∀ v ∈ f, 0 ≤ v)
    (hg : fglob = vecSum m.model.coef.length targets)
    (hraw : raw_global = m.model.predictVec fglob) :
    (targets.map (fun f =>
        m.apply_intercept_share
          (m.cap_power_estimation (m.model.predictVec f) raw_global).1
          (m.cap_power_estimation (m.model.predictVec f) raw_global).2)).sum
      ≤ raw_global := by
  subst hg
  subst hraw
  have hS : dotProduct m.model.coef (vecSum m.model.coef.length targets)
      = (targets.map (dotProduct m.model.coef)).sum := dot_vecSum _ targets hlen
  set S := (targets.map (dotProduct m.model.coef)).sum with hSdef
  have hpg : m.model.predictVec (vecSum m.model.coef.length targets)
      = m.model.intercept + S := by
    unfold Regression.predictVec
    rw [hS]
  have hmap : (targets.map (fun f =>
      m.apply_intercept_share
        (m.cap_power_estimation (m.model.predictVec f)
          (m.model.predictVec (vecSum m.model.coef.length targets))).1
        (m.cap_power_estimation (m.model.predictVec f)
          (m.model.predictVec (vecSum m.model.coef.length targets))).2))
      = targets.map (fun f => dotProduct m.model.coef f +
          (if 0 < S then dotProduct m.model.coef f / S * m.model.intercept else 0)) := by
    apply List.map_congr_left
    intro f hf
    have hsf : 0 ≤ dotProduct m.model.coef f := dot_nonneg _ _ hc (hnn f hf)
    have := cap_share_eq m (dotProduct m.model.coef f) S hsf
    rw [hpg]
    show m.apply_intercept_share
        (m.cap_power_estimation (m.model.intercept + dotProduct m.model.coef f)
          (m.model.intercept + S)).1
        (m.cap_power_estimation (m.model.intercept + dotProduct m.model.coef f)
          (m.model.intercept + S)).2 = _
    exact this
  rw [hmap, hpg, sum_map_add]
  by_cases hSpos : 0 < S
  · simp only [if_pos hSpos]
    have h2 : (targets.map (fun f => dotProduct m.model.coef f / S * m.model.intercept)).sum
        = S / S * m.model.intercept := by
      have hr : ∀ f : List ℚ,
          dotProduct m.model.coef f / S * m.model.intercept
            = dotProduct m.model.coef f * (m.model.intercept / S) := by
        intro f; ring
      rw [List.map_congr_left (fun f _ => hr f), List.sum_map_mul_right, ← hSdef]
      ring
    rw [h2, div_self (ne_of_gt hSpos), one_mul]
    linarith
  · simp only [if_neg hSpos]
    simp only [List.map_const', List.sum_replicate, smul_zero, add_zero]
    have hSnn : 0 ≤ S := by
      rw [hSdef]
      apply List.sum_nonneg
      intro x hx
      obtain ⟨f, hf, rfl⟩ := List.mem_map.1 hx
      exact dot_nonneg _ _ hc (hnn f hf)
    linarith

/-- C1 (witness): a fitted model with intercept 2 and coefficient vector
[1], two targets with features [1] and [2], global features [3]. -/
theorem power_accounting_witness :
    ((0 : ℚ) ≤ ((⟨1, ⟨[1], 2, true, true⟩, "h", ⟨2, [], []⟩, 1⟩ : PowerModel)).model.intercept ∧
      (∀ v ∈ ((⟨1, ⟨[1], 2, true, true⟩, "h", ⟨2, [], []⟩, 1⟩ : PowerModel)).model.coef, (0:ℚ) ≤ v) ∧
      (∀ f ∈ [[(1:ℚ)], [2]], f.length =
        ((⟨1, ⟨[1], 2, true, true⟩, "h", ⟨2, [], []⟩, 1⟩ : PowerModel)).model.coef.length) ∧
      (∀ f ∈ [[(1:ℚ)], [2]], ∀ v ∈ f, (0:ℚ) ≤ v) ∧
      [(3:ℚ)] = vecSum ((⟨1, ⟨[1], 2, true, true⟩, "h", ⟨2, [], []⟩, 1⟩ : PowerModel)).model.coef.length
        [[(1:ℚ)], [2]] ∧
      (5:ℚ) = ((⟨1, ⟨[1], 2, true, true⟩, "h", ⟨2, [], []⟩, 1⟩ : PowerModel)).model.predictVec [(3:ℚ)]) ∧
    ([[(1:ℚ)], [2]].map (fun f =>
        ((⟨1, ⟨[1], 2, true, true⟩, "h", ⟨2, [], []⟩, 1⟩ : PowerModel)).apply_intercept_share
          (((⟨1, ⟨[1], 2, true, true⟩, "h", ⟨2, [], []⟩, 1⟩ : PowerModel)).cap_power_estimation
            (((⟨1, ⟨[1], 2, true, true⟩, "h", ⟨2, [], []⟩, 1⟩ : PowerModel)).model.predictVec f) 5).1
          (((⟨1, ⟨[1], 2, true, true⟩, "h", ⟨2, [], []⟩, 1⟩ : PowerModel)).cap_power_estimation
            (((⟨1, ⟨[1], 2, true, true⟩, "h", ⟨2, [], []⟩, 1⟩ : PowerModel)).model.predictVec f) 5).2)).sum
      ≤ 5 := by
  have h1 : (0 : ℚ) ≤ 2 := of_decide_eq_true (by with_unfolding_all rfl)
  have h2 : ∀ v ∈ [(1:ℚ)], (0:ℚ) ≤ v := by
    intro v hv
    rcases List.mem_singleton.1 hv with rfl
    exact of_decide_eq_true (by with_unfolding_all rfl)
  have h3 : ∀ f ∈ [[(1:ℚ)], [2]], f.length = ([(1:ℚ)]).length := by
    intro f hf
    rcases List.mem_cons.1 hf with rfl | hf2
    · rfl
    · rcases List.mem_singleton.1 hf2 with rfl
      rfl
  have h4 : ∀ f ∈ [[(1:ℚ)], [2]], ∀ v ∈ f, (0:ℚ) ≤ v := by
    intro f hf v hv
    rcases List.mem_cons.1 hf with rfl | hf2
    · rcases List.mem_singleton.1 hv with rfl
      exact of_decide_eq_true (by with_unfolding_all rfl)
    · rcases List.mem_singleton.1 hf2 with rfl
      rcases List.mem_singleton.1 hv with rfl
      exact of_decide_eq_true (by with_unfolding_all rfl)
  have h5 : [(3:ℚ)] = vecSum 1 [[(1:ℚ)], [2]] := by with_unfolding_all rfl
  have h6 : (5:ℚ) = (Regression.mk [1] 2 true true).predictVec [(3:ℚ)] := by
    with_unfolding_all rfl
  exact ⟨⟨h1, h2, h3, h4, h5, h6⟩,
    power_accounting ⟨1, ⟨[1], 2, true, true⟩, "h", ⟨2, [], []⟩, 1⟩ [[(1:ℚ)], [2]] [(3:ℚ)] 5
      h1 h2 h3 h4 h5 h6⟩

/-- Inversion of a successful `Except` bind. -/
theorem except_bind_ok {ε α β : Type} (x : Except ε α) (f : α → Except ε β) (b : β) :
    (x >>= f) = Except.ok b ↔ ∃ a, x = Except.ok a ∧ f a = Except.ok b := by
  cases x <;> simp [Bind.bind, Except.bind]

/-- C4 (amended).  When the oldest tick's reference report lacks a required
RAPL index, `process_report` removes the tick from the buffer and then the
`SmartWattsException` propagates to the caller: no try/except guards the
call to `_process_oldest_tick`, so the exception crosses the stream
boundary and the observers receive nothing. -/
theorem process_report_missing_index_propagates (fitFn : FitFn) (st : Smartwatts)
    (r : HWPCReport) (ts : Nat) (reps : List (String × HWPCReport))
    (rest : List (Nat × List (String × HWPCReport))) (g : HWPCReport) (msg : String)
    (hmode : st.config.real_time_mode = true)
    (hticks : insertTick st.ticks r.timestamp r.target r = (ts, reps) :: rest)
    (hlen : 2 < ((ts, reps) :: rest).length)
    (hall : alookup reps "all" = some g)
    (hrapl : gen_rapl_events_group st.config g =
      Except.error (PyError.smartWattsException msg)) :
    process_report fitFn st r =
      ({ st with ticks := rest, sensor := some r.sensor },
        Except.error (PyError.smartWattsException msg)) := by
  unfold process_report
  simp only [hticks, hmode, if_true, processOldestTick]
  rw [if_pos hlen]
  unfold processTickCore
  rw [hall]
  simp only [Bind.bind]
  rw [hrapl]
  rfl

/-- C4 (counterexample).  The claim says no exception crosses the
stream-operator boundary; on the source, ingesting a third tick while the
oldest tick's reference report lacks the RAPL socket index makes
`process_report` raise `SmartWattsException` to its caller (while the tick
buffer still advanced from holding ticks 1 and 2 to holding 2 and 3). -/
theorem process_report_exception_escapes :
    (process_report fitA stB2 (rNoRapl 3)).2 =
      Except.error (PyError.smartWattsException
        (create_exception_message_missing_index "0" RAPL_GROUP "socket")) ∧
    stB2.ticks.map Prod.fst = [1, 2] ∧
    (process_report fitA stB2 (rNoRapl 3)).1.ticks.map Prod.fst = [2, 3] :=
  ⟨by with_unfolding_all rfl, by with_unfolding_all rfl, by with_unfolding_all rfl⟩

/-- C4 (witness for the amended theorem): the general statement applied to
the concrete groupless scenario. -/
theorem process_report_missing_index_propagates_witness :
    (stB2.config.real_time_mode = true ∧
      insertTick stB2.ticks 3 "all" (rNoRapl 3) =
        (1, [("all", rNoRapl 1)]) :: [(2, [("all", rNoRapl 2)]), (3, [("all", rNoRapl 3)])] ∧
      2 < ((1, [("all", rNoRapl 1)]) :: [(2, [("all", rNoRapl 2)]), (3, [("all", rNoRapl 3)])]).length ∧
      alookup [("all", rNoRapl 1)] "all" = some (rNoRapl 1) ∧
      gen_rapl_events_group stB2.config (rNoRapl 1) =
        Except.error (PyError.smartWattsException
          (create_exception_message_missing_index "0" RAPL_GROUP "socket"))) ∧
    process_report fitA stB2 (rNoRapl 3) =
      ({ stB2 with
          ticks := [(2, [("all", rNoRapl 2)]), (3, [("all", rNoRapl 3)])]
          sensor := some "s" },
        Except.error (PyError.smartWattsException
          (create_exception_message_missing_index "0" RAPL_GROUP "socket"))) := by
  have h1 : stB2.config.real_time_mode = true := by with_unfolding_all rfl
  have h2 : insertTick stB2.ticks 3 "all" (rNoRapl 3) =
      (1, [("all", rNoRapl 1)]) :: [(2, [("all", rNoRapl 2)]), (3, [("all", rNoRapl 3)])] := by
    with_unfolding_all rfl
  have h3 : 2 < ((1, [("all", rNoRapl 1)]) ::
      [(2, [("all", rNoRapl 2)]), (3, [("all", rNoRapl 3)])]).length := by decide
  have h4 : alookup [("all", rNoRapl 1)] "all" = some (rNoRapl 1) := by
    with_unfolding_all rfl
  have h5 : gen_rapl_events_group stB2.config (rNoRapl 1) =
      Except.error (PyError.smartWattsException
        (create_exception_message_missing_index "0" RAPL_GROUP "socket")) := by
    with_unfolding_all rfl
  exact ⟨⟨h1, h2, h3, h4, h5⟩,
    process_report_missing_index_propagates fitA stB2 (rNoRapl 3) 1
      [("all", rNoRapl 1)] [(2, [("all", rNoRapl 2)]), (3, [("all", rNoRapl 3)])]
      (rNoRapl 1) _ h1 h2 h3 h4 h5⟩

/-- C5 (amended).  For a tick whose aggregated core events are non-empty
and whose selected model is fitted, `_process_oldest_tick` generates
exactly one formula diagnostic report; but `process_report` discards the
formula reports (it submits only the power reports), so no formula report
is ever emitted to the formula's observers. -/
theorem formula_report_generated_not_submitted :
    (∀ (fitFn : FitFn) (st : Smartwatts) (r : HWPCReport) (outs : List Output),
      (process_report fitFn st r).2 = Except.ok outs →
      ∀ o ∈ outs, o.isFormulaOut = false) ∧
    (∀ (fitFn : FitFn) (st : Smartwatts) (ts : Nat)
      (reps : List (String × HWPCReport)) (prs : List PowerReport)
      (frs : List FormulaReport) (st2 : Smartwatts) (g : HWPCReport)
      (core avg : List (String × ℚ)) (layer : Int) (mdl : PowerModel),
      processTickCore fitFn st ts reps = Except.ok (prs, frs, st2) →
      alookup reps "all" = some g →
      gen_msr_events_group st.config g = Except.ok avg →
      gen_agg_core_report_from_running_targets st.config (removeAssoc reps "all") =
        Except.ok core →
      core ≠ [] →
      get_power_model_layer st avg = Except.ok (layer, mdl) →
      mdl.model.fitted = true →
      frs.length = 1) := by
  constructor
  · intro fitFn st r outs h
    simp only [process_report] at h
    split at h
    all_goals split at h
    all_goals try split at h
    all_goals simp at h
    all_goals subst h
    all_goals intro o ho
    all_goals
      first
        | (obtain ⟨pr, -, rfl⟩ := List.mem_map.1 ho; rfl)
        | exact (List.not_mem_nil o ho).elim
  · intro fitFn st ts reps prs frs st2 g core avg layer mdl h hall hmsr hagg hcore hgpm hfitted
    unfold processTickCore at h
    rw [hall] at h
    simp only [except_bind_ok] at h
    obtain ⟨rapl, hrapl, h⟩ := h
    obtain ⟨avg2, hmsr2, h⟩ := h
    rw [hmsr] at hmsr2
    injection hmsr2 with havg
    subst havg
    obtain ⟨core2, hagg2, h⟩ := h
    rw [hagg] at hagg2
    injection hagg2 with hcore2
    subst hcore2
    cases hlk : alookup rapl st.config.rapl_event with
    | none =>
        rw [hlk] at h
        simp only [Bind.bind, Except.bind] at h
        cases h
    | some v =>
        rw [hlk] at h
        simp only [Bind.bind, Except.bind] at h
        rw [if_neg hcore] at h
        have hce : mdl.compute_power_estimation core =
            Except.ok (mdl.model.predictVec (extract_events_value core)) := by
          unfold PowerModel.compute_power_estimation
          rw [hfitted]
          simp
        split at h
        · simp at h
        · rename_i pf hpf
          split at h
          · simp at h
          · rename_i lm hlm
            rw [hgpm] at hlm
            injection hlm with hlm2
            subst hlm2
            dsimp only at h
            split at h
            · rename_i hq
              rw [hce] at hq
              simp at hq
            · rename_i e hq
              rw [hce] at hq
              simp at hq
            · rename_i raw hq
              split at h
              · simp at h
              · rename_i trs htrs
                simp only [Except.ok.injEq, Prod.mk.injEq] at h
                obtain ⟨h1, h2, h3⟩ := h
                rw [← h2]
                rfl

/-- C5 (counterexample).  The claim says exactly one formula diagnostic
report is emitted to the formula's observers for such a tick; on the
source, processing tick 3 (non-empty aggregated core events, fitted model)
delivers three power outputs and zero formula outputs to the observers,
although one formula report was generated internally and then discarded. -/
theorem formula_report_dropped_cex :
    (process_report fitA stA6 (rAll 5)).2 = Except.ok (stA7res.1.map Output.power) ∧
    stA7res.1.length = 3 ∧
    (stA7res.1.map Output.power).countP Output.isFormulaOut = 0 ∧
    stA7res.2.1.length = 1 ∧
    mdlA.model.fitted = true ∧
    gen_agg_core_report_from_running_targets cfgA [("t1", rT1 3)] =
      Except.ok [("e1", 2)] :=
  ⟨by with_unfolding_all rfl, by with_unfolding_all rfl,
    by with_unfolding_all rfl, by with_unfolding_all rfl,
    by with_unfolding_all rfl, by with_unfolding_all rfl⟩

/-- C5 (witness for the amended theorem): both parts applied to the tick-3
scenario. -/
theorem formula_report_generated_not_submitted_witness :
    (processTickCore fitA stOld5 3 tick3reps = Except.ok stA7res ∧
      alookup tick3reps "all" = some (rAll 3) ∧
      gen_msr_events_group stOld5.config (rAll 3) =
        Except.ok [("APERF", 1), ("MPERF", 1)] ∧
      gen_agg_core_report_from_running_targets stOld5.config
        (removeAssoc tick3reps "all") = Except.ok [("e1", 2)] ∧
      ([("e1", (2 : ℚ))] : List (String × ℚ)) ≠ [] ∧
      get_power_model_layer stOld5 [("APERF", 1), ("MPERF", 1)] =
        Except.ok (1, mdlA) ∧
      mdlA.model.fitted = true) ∧
    stA7res.2.1.length = 1 ∧
    (∀ o ∈ stA7res.1.map Output.power, o.isFormulaOut = false) := by
  have h1 : processTickCore fitA stOld5 3 tick3reps = Except.ok stA7res := by
    with_unfolding_all rfl
  have h2 : alookup tick3reps "all" = some (rAll 3) := by with_unfolding_all rfl
  have h3 : gen_msr_events_group stOld5.config (rAll 3) =
      Except.ok [("APERF", 1), ("MPERF", 1)] := by with_unfolding_all rfl
  have h4 : gen_agg_core_report_from_running_targets stOld5.config
      (removeAssoc tick3reps "all") = Except.ok [("e1", 2)] := by
    with_unfolding_all rfl
  have h5 : ([("e1", (2 : ℚ))] : List (String × ℚ)) ≠ [] := by simp
  have h6 : get_power_model_layer stOld5 [("APERF", 1), ("MPERF", 1)] =
      Except.ok (1, mdlA) := by with_unfolding_all rfl
  have h7 : mdlA.model.fitted = true := by with_unfolding_all rfl
  have hout : (process_report fitA stA6 (rAll 5)).2 =
      Except.ok (stA7res.1.map Output.power) := by with_unfolding_all rfl
  exact ⟨⟨h1, h2, h3, h4, h5, h6, h7⟩,
    formula_report_generated_not_submitted.2 fitA stOld5 3 tick3reps
      stA7res.1 stA7res.2.1 stA7res.2.2 (rAll 3) [("e1", 2)]
      [("APERF", 1), ("MPERF", 1)] 1 mdlA h1 h2 h3 h4 h5 h6 h7,
    formula_report_generated_not_submitted.1 fitA stA6 (rAll 5)
      (stA7res.1.map Output.power) hout⟩

end SmartwattsFormula
